import Mathlib

/-!
# Verification of the brigade-github-gateway event bridge

A shallow embedding, in Lean 4, of the core logic of the
brigade-github-gateway repository: the webhook transformer (`Handle`, the
emission filter `shouldEmit`, the CI/CD convenience-event derivation
`getCICDEvent`, the check-suite forwarding `requestCheckSuite`) and the
status-reconciliation monitor (`manageEvents` reconciliation, the per-event
monitoring iteration of `monitorEventInternal`, the job-phase-to-check-run
projection `checkRunStatusAndConclusionFromJobStatus`, and the bounded log
fetch `getJobLogs`).

Go maps are embedded as association lists, Go strings as `String`, Go `int64`
as `Int` (`strconv.ParseInt` is modelled with its base-10, 64-bit semantics).
Remote calls (Brigade API, GitHub REST API) are embedded by recording the
request that the code issues and assuming the success path, since the claims
under verification concern the gateway's own logic on those paths.
-/

namespace BGG

/-- Job phases of the Brigade SDK (`sdk.JobPhase`): the closed set of phases
a Job may be in. Modelled from the Brigade SDK v3 (external dependency of
this repository). -/
inductive JobPhase
  | aborted
  | canceled
  | failed
  | pending
  | running
  | schedulingFailed
  | starting
  | succeeded
  | timedOut
  | unknown
  deriving DecidableEq, Repr

/-- `sdk.JobPhase.IsTerminal` from the Brigade SDK v3 (external dependency):
aborted, canceled, failed, scheduling-failed, succeeded and timed-out are
terminal; pending, starting, running and unknown are not. -/
def JobPhase.isTerminal : JobPhase → Bool
  | .aborted => true
  | .canceled => true
  | .failed => true
  | .schedulingFailed => true
  | .succeeded => true
  | .timedOut => true
  | _ => false

/-- Worker phases of the Brigade SDK (`sdk.WorkerPhase`). Modelled from the
Brigade SDK v3 (external dependency of this repository). -/
inductive WorkerPhase
  | aborted
  | canceled
  | failed
  | pending
  | running
  | schedulingFailed
  | starting
  | succeeded
  | timedOut
  | unknown
  deriving DecidableEq, Repr

/-- `sdk.WorkerPhase.IsTerminal` from the Brigade SDK v3 (external
dependency). -/
def WorkerPhase.isTerminal : WorkerPhase → Bool
  | .aborted => true
  | .canceled => true
  | .failed => true
  | .schedulingFailed => true
  | .succeeded => true
  | .timedOut => true
  | _ => false

-- The check-run status and conclusion string constants of monitor/check_runs.go.

def statusCompleted : String := "completed"

def statusInProgress : String := "in_progress"

def statusQueued : String := "queued"

def conclusionCanceled : String := "cancelled"

def conclusionFailure : String := "failure"

def conclusionNeutral : String := "neutral"

def conclusionSuccess : String := "success"

def conclusionTimedOut : String := "timed_out"

/-- `(*monitor).checkRunStatusAndConclusionFromJobStatus` from the monitor:
projects a Job's phase (together with the Job's `fallible` flag and the
deployment's `reportFallibleJobFailuresAsNeutral` configuration flag, here
passed as the first argument) onto a GitHub check-run `(status, conclusion)`
pair. In the Go source `status` and `conclusion` start out as empty strings
and the switch assigns them per phase. -/
def checkRunStatusAndConclusionFromJobStatus
    (reportFallibleJobFailuresAsNeutral : Bool) (jobPhase : JobPhase)
    (fallible : Bool) : String × String :=
  match jobPhase with
  | .aborted | .canceled => (statusCompleted, conclusionCanceled)
  | .failed | .schedulingFailed | .unknown =>
      (statusCompleted,
        if fallible && reportFallibleJobFailuresAsNeutral then
          conclusionNeutral
        else conclusionFailure)
  | .pending | .starting => (statusQueued, "")
  | .running => (statusInProgress, "")
  | .succeeded => (statusCompleted, conclusionSuccess)
  | .timedOut => (statusCompleted, conclusionTimedOut)

/-- **C1.** For every Job phase, fallible flag and configuration flag, the
phase-to-check-run projection returns a status in
`{queued, in_progress, completed}` and an empty conclusion unless the status
is `completed`; succeeded maps to `(completed, success)`, running maps to
`(in_progress, "")`, failed with `fallible = true` and the neutral-downgrade
flag enabled maps to `(completed, neutral)`, and otherwise failed maps to
`(completed, failure)`. -/
theorem checkRunStatusAndConclusion_spec
    (flag : Bool) (p : JobPhase) (fallible : Bool) :
    ((checkRunStatusAndConclusionFromJobStatus flag p fallible).1 = statusQueued ∨
      (checkRunStatusAndConclusionFromJobStatus flag p fallible).1 = statusInProgress ∨
      (checkRunStatusAndConclusionFromJobStatus flag p fallible).1 = statusCompleted) ∧
    ((checkRunStatusAndConclusionFromJobStatus flag p fallible).2 ≠ "" →
      (checkRunStatusAndConclusionFromJobStatus flag p fallible).1 = statusCompleted) ∧
    checkRunStatusAndConclusionFromJobStatus flag .succeeded fallible
      = (statusCompleted, conclusionSuccess) ∧
    checkRunStatusAndConclusionFromJobStatus flag .running fallible
      = (statusInProgress, "") ∧
    checkRunStatusAndConclusionFromJobStatus true .failed true
      = (statusCompleted, conclusionNeutral) ∧
    (¬(fallible = true ∧ flag = true) →
      checkRunStatusAndConclusionFromJobStatus flag .failed fallible
        = (statusCompleted, conclusionFailure)) := by
  cases p <;> cases fallible <;> cases flag <;>
    simp_all [checkRunStatusAndConclusionFromJobStatus, statusQueued,
      statusInProgress, statusCompleted, conclusionSuccess, conclusionNeutral,
      conclusionFailure, conclusionCanceled, conclusionTimedOut]

/-- Witness for C1: the projection evaluated at concrete inputs (phase
`failed`, non-fallible, flag disabled). -/
theorem checkRunStatusAndConclusion_spec_witness :
    checkRunStatusAndConclusionFromJobStatus false .failed false
      = (statusCompleted, conclusionFailure) :=
  (checkRunStatusAndConclusion_spec false .failed false).2.2.2.2.2 (by simp)

/-! ## The emission filter (receiver/internal/webhooks/service.go, `shouldEmit`) -/

/-- `strings.Split(eventType, ":")[0]`: the segment of the event type before
the first `":"` (the whole string when it contains no `":"`). -/
def unqualifiedEventType (s : String) : String :=
  ((s.toList).takeWhile (fun c => c ≠ ':')).asString

/-- `(*service).shouldEmit` from the receiver's webhook service: the event
type is eligible for emission when the configured `EmittedEvents` list
contains the exact type, the unqualified (base) type, or `"*"`. The
`EmittedEvents` configuration list is passed as the first argument. -/
def shouldEmit (emittedEvents : List String) (eventType : String) : Bool :=
  emittedEvents.any (fun emitableEvent =>
    eventType == emitableEvent || unqualifiedEventType eventType == emitableEvent ||
      emitableEvent == "*")

/-- **C5.** `shouldEmit` returns true iff the allow-list contains `"*"`, the
exact type, or the type's base (the segment before the first `":"`); with
allow-list `["pull_request"]` the type `"pull_request:opened"` is emitted,
with `["pull_request:opened"]` the type `"pull_request:closed"` is not, with
`["*"]` everything is emitted, and with an empty list nothing is emitted. -/
theorem shouldEmit_spec (l : List String) (t : String) :
    (shouldEmit l t = true ↔
      ("*" ∈ l ∨ t ∈ l ∨ unqualifiedEventType t ∈ l)) ∧
    shouldEmit ["pull_request"] "pull_request:opened" = true ∧
    shouldEmit ["pull_request:opened"] "pull_request:closed" = false ∧
    shouldEmit ["*"] t = true ∧
    shouldEmit [] t = false := by
  refine ⟨?_, by decide, by decide, ?_, by simp [shouldEmit]⟩
  · simp only [shouldEmit, List.any_eq_true, Bool.or_eq_true, beq_iff_eq]
    constructor
    · rintro ⟨x, hx, (rfl | rfl) | rfl⟩
      · exact Or.inr (Or.inl hx)
      · exact Or.inr (Or.inr hx)
      · exact Or.inl hx
    · rintro (h | h | h)
      · exact ⟨"*", h, Or.inr rfl⟩
      · exact ⟨t, h, Or.inl (Or.inl rfl)⟩
      · exact ⟨unqualifiedEventType t, h, Or.inl (Or.inr rfl)⟩
  · simp [shouldEmit]

/-! ## The bounded log fetch (monitor, `(*monitor).getJobLogs`) -/

/-- The GitHub limit on a check run's text field, used by the monitor as the
circular buffer capacity (`const maxBytes = 65535` in `getJobLogs`). -/
def maxBytes : Nat := 65535

/-- The fixed marker the monitor overwrites onto the start of truncated
logs: `"(Previous text omitted)\n"`. -/
def omittedText : List Char := "(Previous text omitted)\n".toList

/-- Model of `circbuf.Buffer` (github.com/armon/circbuf, an external
dependency): a fixed-capacity circular buffer that can be written to
without bound while retaining the most recent `size` bytes. The model keeps
the full stream of bytes ever written; `bytes` exposes the library's
observable behavior (the last `min totalWritten size` bytes, in order). -/
structure CircBuf where
  size : Nat
  stream : List Char
  deriving DecidableEq, Repr

/-- `(*circbuf.Buffer).Write`: appends to the stream (the buffer retains
only the most recent `size` bytes, see `CircBuf.bytes`). -/
def CircBuf.write (b : CircBuf) (bs : List Char) : CircBuf :=
  { b with stream := b.stream ++ bs }

/-- `(*circbuf.Buffer).TotalWritten`: the total number of bytes ever
written. -/
def CircBuf.totalWritten (b : CircBuf) : Nat := b.stream.length

/-- `(*circbuf.Buffer).Bytes` (and `String`, which stringifies it): the last
`min totalWritten size` bytes written, oldest first. -/
def CircBuf.bytes (b : CircBuf) : List Char :=
  b.stream.drop (b.stream.length - b.size)

/-- Go's `copy(logBytes[0:], "(Previous text omitted)\n")`: overwrite the
start of `dst` with `src`, copying `min dst.length src.length` bytes. -/
def overwriteStart (dst src : List Char) : List Char :=
  src.take dst.length ++ dst.drop src.length

/-- `(*monitor).getJobLogs` from the monitor (success path of the log
stream): a non-terminal job yields `""` without opening the stream; for a
terminal job, each streamed entry's message followed by `"\n"` is written
into a `maxBytes`-capacity circular buffer; if the total bytes written
exceed `maxBytes`, the omission marker is overwritten onto the start of the
buffer's contents, otherwise the buffer's contents are returned as-is. -/
def getJobLogs (phase : JobPhase) (entries : List (List Char)) : List Char :=
  if !phase.isTerminal then [] else
  let jobLogsBuffer := entries.foldl
    (fun (b : CircBuf) logEntryMessage => (b.write logEntryMessage).write ['\n'])
    ({ size := maxBytes, stream := [] } : CircBuf)
  if jobLogsBuffer.totalWritten > maxBytes then
    overwriteStart jobLogsBuffer.bytes omittedText
  else
    jobLogsBuffer.bytes

/-- The log stream written by `getJobLogs`: each entry's message plus a
newline, concatenated. -/
def logStream (entries : List (List Char)) : List Char :=
  (entries.map (fun m => m ++ ['\n'])).flatten

theorem foldl_write_stream (entries : List (List Char)) (b : CircBuf) :
    (entries.foldl (fun b m => (b.write m).write ['\n']) b).stream
      = b.stream ++ logStream entries := by
  induction entries generalizing b with
  | nil => simp [logStream]
  | cons m ms ih => rw [List.foldl_cons, ih]; simp [CircBuf.write, logStream]

theorem foldl_write_size (entries : List (List Char)) (b : CircBuf) :
    (entries.foldl (fun b m => (b.write m).write ['\n']) b).size = b.size := by
  induction entries generalizing b with
  | nil => simp
  | cons m ms ih => rw [List.foldl_cons, ih]; simp [CircBuf.write]

theorem overwriteStart_length (dst src : List Char) :
    (overwriteStart dst src).length = dst.length := by
  simp only [overwriteStart, List.length_append, List.length_take,
    List.length_drop]
  omega

theorem overwriteStart_take (dst src : List Char)
    (h : src.length ≤ dst.length) :
    (overwriteStart dst src).take src.length = src := by
  have h1 : src.take dst.length = src := List.take_of_length_le h
  simp only [overwriteStart, h1]
  exact List.take_left src (dst.drop src.length)

theorem getJobLogs_eq_of_terminal (phase : JobPhase) (entries : List (List Char))
    (hp : phase.isTerminal = true) :
    getJobLogs phase entries =
      (if (logStream entries).length > maxBytes then
        overwriteStart
          ((logStream entries).drop ((logStream entries).length - maxBytes))
          omittedText
      else logStream entries) := by
  simp only [getJobLogs, hp, Bool.not_true, Bool.false_eq_true, if_false,
    CircBuf.totalWritten, CircBuf.bytes, foldl_write_stream, foldl_write_size,
    List.nil_append]
  by_cases h : (logStream entries).length > maxBytes
  · simp [h]
  · simp only [h, if_false]
    have : (logStream entries).length - maxBytes = 0 := by omega
    simp [this]

theorem logStream_replicate_length (n : Nat) (m : List Char) :
    (logStream (List.replicate n m)).length = n * (m.length + 1) := by
  induction n with
  | zero => simp [logStream]
  | succ k ih =>
      rw [List.replicate_succ]
      simp only [logStream, List.map_cons, List.flatten_cons,
        List.length_append, List.length_cons, List.length_nil] at ih ⊢
      rw [ih]
      ring

theorem getJobLogs_over (phase : JobPhase) (entries : List (List Char))
    (hp : phase.isTerminal = true)
    (h : (logStream entries).length > maxBytes) :
    (getJobLogs phase entries).length = maxBytes ∧
    (getJobLogs phase entries).take omittedText.length = omittedText := by
  rw [getJobLogs_eq_of_terminal phase entries hp, if_pos h]
  constructor
  · rw [overwriteStart_length, List.length_drop]
    omega
  · apply overwriteStart_take
    rw [List.length_drop]
    have h24 : omittedText.length = 24 := rfl
    have hM : maxBytes = 65535 := rfl
    omega

theorem getJobLogs_under (phase : JobPhase) (entries : List (List Char))
    (hp : phase.isTerminal = true)
    (h : (logStream entries).length ≤ maxBytes) :
    getJobLogs phase entries = logStream entries := by
  rw [getJobLogs_eq_of_terminal phase entries hp, if_neg (by omega)]

/-- **C2.** For every terminal job and every finite sequence of streamed log
entries, the bounded log fetch appends each entry's message plus a newline
into a 65,535-byte circular buffer and returns: when total bytes written
exceed 65,535, a string of exactly 65,535 bytes whose start is overwritten
with `"(Previous text omitted)\n"`; otherwise exactly the bytes written with
no padding. In particular 32,768 one-character lines (65,536 bytes with
newlines) yield exactly 65,535 bytes starting with the marker, and 32,767
such lines yield exactly 65,534 bytes with no marker. -/
theorem getJobLogs_spec (phase : JobPhase) (entries : List (List Char))
    (hp : phase.isTerminal = true) :
    ((logStream entries).length > maxBytes →
      (getJobLogs phase entries).length = 65535 ∧
      (getJobLogs phase entries).take omittedText.length = omittedText) ∧
    ((logStream entries).length ≤ maxBytes →
      getJobLogs phase entries = logStream entries) ∧
    (logStream (List.replicate 32768 (['a'] : List Char))).length = 65536 ∧
    (getJobLogs phase (List.replicate 32768 (['a'] : List Char))).length
      = 65535 ∧
    (getJobLogs phase (List.replicate 32768 (['a'] : List Char))).take
      omittedText.length = omittedText ∧
    (logStream (List.replicate 32767 (['a'] : List Char))).length = 65534 ∧
    (getJobLogs phase (List.replicate 32767 (['a'] : List Char))).length
      = 65534 ∧
    (getJobLogs phase (List.replicate 32767 (['a'] : List Char))).take
      omittedText.length ≠ omittedText := by
  have hM : maxBytes = 65535 := rfl
  have h68 : (logStream (List.replicate 32768 (['a'] : List Char))).length
      = 65536 := by
    rw [logStream_replicate_length]; rfl
  have h67 : (logStream (List.replicate 32767 (['a'] : List Char))).length
      = 65534 := by
    rw [logStream_replicate_length]; rfl
  have hover := getJobLogs_over phase (List.replicate 32768 ['a']) hp
    (by rw [h68, hM]; omega)
  have hunder := getJobLogs_under phase (List.replicate 32767 ['a']) hp
    (by rw [h67, hM]; omega)
  refine ⟨fun h => ⟨(getJobLogs_over phase entries hp h).1.trans hM,
      (getJobLogs_over phase entries hp h).2⟩,
    getJobLogs_under phase entries hp, h68, hover.1.trans hM, hover.2, h67,
    ?_, ?_⟩
  · rw [hunder, h67]
  · rw [hunder]
    decide

/-- Witness for C2: the log fetch evaluated at a concrete terminal job with
two short log entries. -/
theorem getJobLogs_spec_witness :
    getJobLogs .succeeded [['h', 'i'], ['y', 'o']]
      = ['h', 'i', '\n', 'y', 'o', '\n'] := by
  rw [(getJobLogs_spec .succeeded [['h', 'i'], ['y', 'o']] rfl).2.1
    (by decide)]
  decide

/-! ## Discovery-loop reconciliation (monitor, `(*monitor).manageEvents`)

One cycle of `manageEvents` holds a registry `loopCancelFns` mapping Event
IDs to cancel handles, lists the currently trackable Events into a set
`currentEvents`, cancels and removes every registry entry whose key is no
longer listed, and starts (and registers a fresh cancel handle for) a
monitoring goroutine for every listed key not in the registry. The registry
map is embedded as an association list with `Nodup` keys, cancel handles as
tokens (`Nat`); fresh handles for newly started tasks are numbered from
`nextToken`. -/

/-- The entries of `loopCancelFns` whose Event ID was not selected by the
fresh listing: their cancel handle is invoked and they are removed. -/
def reconcileCanceled (loopCancelFns : List (String × Nat))
    (currentEvents : List String) : List (String × Nat) :=
  loopCancelFns.filter (fun e => decide (e.1 ∉ currentEvents))

/-- The entries of `loopCancelFns` that survive the cancellation pass:
their Event ID is still listed, and they are left untouched. -/
def reconcileKept (loopCancelFns : List (String × Nat))
    (currentEvents : List String) : List (String × Nat) :=
  loopCancelFns.filter (fun e => decide (e.1 ∈ currentEvents))

/-- The newly started monitoring tasks: one per listed Event ID absent from
the (post-cancellation) registry, each recorded with a fresh cancel
handle. -/
def reconcileStarted (loopCancelFns : List (String × Nat))
    (currentEvents : List String) (nextToken : Nat) : List (String × Nat) :=
  (currentEvents.filter (fun id =>
      decide (id ∉ (reconcileKept loopCancelFns currentEvents).map Prod.fst))).enum.map
    (fun p => (p.2, nextToken + p.1))

/-- The observable outcome of one reconciliation cycle of `manageEvents`:
the updated registry, the entries whose cancel handle was invoked, and the
entries newly started. -/
structure ReconcileResult where
  loopCancelFns : List (String × Nat)
  canceled : List (String × Nat)
  started : List (String × Nat)
  deriving DecidableEq, Repr

/-- One reconciliation cycle of `(*monitor).manageEvents`: stop monitoring
loops for Events absent from the fresh listing, then start monitoring loops
for newly discovered Events. -/
def manageEventsReconcile (loopCancelFns : List (String × Nat))
    (currentEvents : List String) (nextToken : Nat) : ReconcileResult :=
  let canceled := reconcileCanceled loopCancelFns currentEvents
  let kept := reconcileKept loopCancelFns currentEvents
  let started := reconcileStarted loopCancelFns currentEvents nextToken
  { loopCancelFns := kept ++ started, canceled := canceled,
    started := started }

theorem reconcileStarted_map_fst (l : List (String × Nat))
    (c : List String) (n : Nat) :
    (reconcileStarted l c n).map Prod.fst
      = c.filter (fun id => decide (id ∉ (reconcileKept l c).map Prod.fst)) := by
  simp only [reconcileStarted, List.map_map]
  have : (Prod.fst ∘ fun p : Nat × String => (p.2, n + p.1)) = Prod.snd := rfl
  rw [this, List.enum_map_snd]

theorem mem_reconcileKept_map_fst (l : List (String × Nat))
    (c : List String) (id : String) (hid : id ∈ c) :
    id ∈ (reconcileKept l c).map Prod.fst ↔ id ∈ l.map Prod.fst := by
  simp only [reconcileKept, List.mem_map, List.mem_filter,
    decide_eq_true_eq]
  constructor
  · rintro ⟨e, ⟨he, -⟩, rfl⟩
    exact ⟨e, he, rfl⟩
  · rintro ⟨e, he, rfl⟩
    exact ⟨e, ⟨he, hid⟩, rfl⟩

theorem reconcileStarted_fst_eq (l : List (String × Nat)) (c : List String)
    (n : Nat) :
    (reconcileStarted l c n).map Prod.fst
      = c.filter (fun id => decide (id ∉ l.map Prod.fst)) := by
  rw [reconcileStarted_map_fst]
  apply List.filter_congr
  intro id hid
  simp only [decide_eq_decide]
  exact not_congr (mem_reconcileKept_map_fst l c id hid)

/-- **C3.** One reconciliation cycle of the discovery loop keeps the
registry free of duplicate Event IDs (hence at most one active monitoring
task per Event ID); it cancels and removes exactly the registry entries
whose Event ID is absent from the fresh listing, leaves still-listed
entries untouched (same cancel handle, not canceled), and starts a new task
exactly for the listed Event IDs absent from the registry. For previous
registry `{A, B}` and new listing `{B, C}`: A is canceled, B is untouched,
and C is newly started. -/
theorem manageEventsReconcile_spec (l : List (String × Nat))
    (c : List String) (n : Nat)
    (h1 : (l.map Prod.fst).Nodup) (h2 : c.Nodup) :
    ((manageEventsReconcile l c n).loopCancelFns.map Prod.fst).Nodup ∧
    (∀ e, e ∈ (manageEventsReconcile l c n).canceled ↔ e ∈ l ∧ e.1 ∉ c) ∧
    (∀ e ∈ (manageEventsReconcile l c n).canceled,
      e.1 ∉ (manageEventsReconcile l c n).loopCancelFns.map Prod.fst) ∧
    (∀ e ∈ l, e.1 ∈ c → e ∈ (manageEventsReconcile l c n).loopCancelFns ∧
      e ∉ (manageEventsReconcile l c n).canceled) ∧
    ((manageEventsReconcile l c n).started.map Prod.fst
      = c.filter (fun id => decide (id ∉ l.map Prod.fst))) ∧
    manageEventsReconcile [("A", 0), ("B", 1)] ["B", "C"] 2
      = ⟨[("B", 1), ("C", 2)], [("A", 0)], [("C", 2)]⟩ := by
  have hkept : ((reconcileKept l c).map Prod.fst).Nodup :=
    List.Nodup.sublist (List.Sublist.map Prod.fst (List.filter_sublist l)) h1
  have hstn : ((reconcileStarted l c n).map Prod.fst).Nodup := by
    rw [reconcileStarted_fst_eq]
    exact h2.filter _
  refine ⟨?_, ?_, ?_, ?_, reconcileStarted_fst_eq l c n, by decide⟩
  · show (((reconcileKept l c) ++ (reconcileStarted l c n)).map
      Prod.fst).Nodup
    rw [List.map_append]
    refine hkept.append hstn ?_
    intro a ha hb
    rw [reconcileStarted_map_fst] at hb
    simp only [List.mem_filter, decide_eq_true_eq] at hb
    exact hb.2 ha
  · intro e
    simp [manageEventsReconcile, reconcileCanceled, List.mem_filter]
  · intro e he hmem
    simp only [manageEventsReconcile, reconcileCanceled, List.mem_filter,
      decide_eq_true_eq] at he
    simp only [manageEventsReconcile, List.map_append, List.mem_append] at hmem
    rcases hmem with hk | hs
    · simp only [reconcileKept, List.mem_map, List.mem_filter,
        decide_eq_true_eq] at hk
      obtain ⟨b, ⟨-, hbc⟩, hb⟩ := hk
      exact he.2 (hb ▸ hbc)
    · rw [reconcileStarted_fst_eq] at hs
      simp only [List.mem_filter, decide_eq_true_eq] at hs
      exact he.2 hs.1
  · intro e he hec
    constructor
    · show e ∈ (reconcileKept l c) ++ (reconcileStarted l c n)
      refine List.mem_append.mpr (Or.inl ?_)
      simp only [reconcileKept, List.mem_filter, decide_eq_true_eq]
      exact ⟨he, hec⟩
    · show e ∉ reconcileCanceled l c
      simp only [reconcileCanceled, List.mem_filter, decide_eq_true_eq]
      exact fun h => h.2 hec

/-- Witness for C3: the reconciliation cycle evaluated at the concrete
registry `{A, B}` with listing `{B, C}`. -/
theorem manageEventsReconcile_spec_witness :
    manageEventsReconcile [("A", 0), ("B", 1)] ["B", "C"] 2
      = ⟨[("B", 1), ("C", 2)], [("A", 0)], [("C", 2)]⟩ :=
  (manageEventsReconcile_spec [("A", 0), ("B", 1)] ["B", "C"] 2
    (by decide) (by decide)).2.2.2.2.2

/-! ## Check-suite forwarding
(receiver/internal/webhooks/check_suite_forwarding.go, `requestCheckSuite`) -/

/-- A GitHub check suite as relevant to `requestCheckSuite`: its ID, the
app that owns it, and the commit it reports on. -/
structure CheckSuite where
  id : Int
  appID : Int
  headSHA : String
  deriving DecidableEq, Repr

/-- The GitHub Checks REST API backend (external collaborator), as far as
`requestCheckSuite` observes it: the recorded check suites and the ID the
backend will assign to the next created suite. -/
structure GHChecksState where
  checkSuites : List CheckSuite
  nextID : Int
  deriving DecidableEq, Repr

/-- `ghClient.Checks.ListCheckSuitesForRef` with `ListCheckSuiteOptions`
filtering by this app's ID: the suites recorded for the given commit and
app. -/
def listCheckSuitesForRef (st : GHChecksState) (commit : String)
    (appID : Int) : List CheckSuite :=
  st.checkSuites.filter (fun cs => cs.appID == appID && cs.headSHA == commit)

/-- The observable outcome of `(*service).requestCheckSuite`: the backend
state afterwards, the ID of a created suite (`none` when an existing suite
was reused), and the ID passed to `ReRequestCheckSuite`. -/
structure RequestCheckSuiteResult where
  state : GHChecksState
  created : Option Int
  rerunID : Int
  deriving DecidableEq, Repr

/-- `(*service).requestCheckSuite` (success path): list the existing check
suites for the commit filtered by this app's ID; if any exists
(`res.GetTotal() > 0`) reuse the first, otherwise create a new check suite
for the commit; finally request a (re-)run of that suite.
`CreateCheckSuite` is modelled as the backend recording a suite for this
app and commit under a fresh ID. -/
def requestCheckSuite (st : GHChecksState) (appID : Int)
    (commit : String) : RequestCheckSuiteResult :=
  match listCheckSuitesForRef st commit appID with
  | checkSuite :: _ =>
      { state := st, created := none, rerunID := checkSuite.id }
  | [] =>
      let checkSuite : CheckSuite :=
        { id := st.nextID, appID := appID, headSHA := commit }
      let newState : GHChecksState :=
        { checkSuites := st.checkSuites ++ [checkSuite],
          nextID := st.nextID + 1 }
      { state := newState, created := some checkSuite.id,
        rerunID := checkSuite.id }

/-- Repeated triggers: `requestCheckSuite` applied `k` times for the same
app and commit (e.g. a comment following a push). -/
def repeatRequestCheckSuite (appID : Int) (commit : String) :
    Nat → GHChecksState → GHChecksState
  | 0, st => st
  | k + 1, st =>
      repeatRequestCheckSuite appID commit k
        (requestCheckSuite st appID commit).state

theorem requestCheckSuite_preserves (st : GHChecksState) (appID : Int)
    (commit : String)
    (h : (listCheckSuitesForRef st commit appID).length ≤ 1) :
    (listCheckSuitesForRef (requestCheckSuite st appID commit).state commit
      appID).length ≤ 1 := by
  rcases hl : listCheckSuitesForRef st commit appID with _ | ⟨cs, rest⟩
  · have hfil : st.checkSuites.filter
        (fun cs => cs.appID == appID && cs.headSHA == commit) = [] := hl
    simp [requestCheckSuite, hl, listCheckSuitesForRef, List.filter_append,
      hfil]
  · simp only [requestCheckSuite, hl]
    rw [hl] at h
    exact h

theorem repeatRequestCheckSuite_preserves (appID : Int) (commit : String)
    (k : Nat) (st : GHChecksState)
    (h : (listCheckSuitesForRef st commit appID).length ≤ 1) :
    (listCheckSuitesForRef (repeatRequestCheckSuite appID commit k st)
      commit appID).length ≤ 1 := by
  induction k generalizing st with
  | zero => exact h
  | succ m ih =>
      exact ih _ (requestCheckSuite_preserves st appID commit h)

/-- **C6.** Requesting a check suite for a commit first lists the existing
check suites for that commit filtered by this app's identity; if exactly
one exists it is re-run (nothing is created, the backend state is
unchanged), and otherwise a new check suite is created for the commit and
then run. A suite is created iff the filtered listing is empty (never a
blind create), and under repeated triggers at most one check suite per
(app, commit) ever exists. -/
theorem requestCheckSuite_spec (st : GHChecksState) (appID : Int)
    (commit : String)
    (hinv : (listCheckSuitesForRef st commit appID).length ≤ 1) :
    ((requestCheckSuite st appID commit).created.isSome ↔
      listCheckSuitesForRef st commit appID = []) ∧
    (∀ cs, listCheckSuitesForRef st commit appID = [cs] →
      (requestCheckSuite st appID commit).state = st ∧
      (requestCheckSuite st appID commit).created = none ∧
      (requestCheckSuite st appID commit).rerunID = cs.id) ∧
    (listCheckSuitesForRef st commit appID = [] →
      (requestCheckSuite st appID commit).created = some st.nextID ∧
      (requestCheckSuite st appID commit).rerunID = st.nextID ∧
      listCheckSuitesForRef (requestCheckSuite st appID commit).state commit
        appID = [⟨st.nextID, appID, commit⟩]) ∧
    (∀ k, (listCheckSuitesForRef
      (repeatRequestCheckSuite appID commit k st) commit appID).length ≤ 1) := by
  refine ⟨?_, ?_, ?_,
    fun k => repeatRequestCheckSuite_preserves appID commit k st hinv⟩
  · rcases hl : listCheckSuitesForRef st commit appID with _ | ⟨cs, rest⟩
    · simp [requestCheckSuite, hl]
    · simp [requestCheckSuite, hl]
  · intro cs hl
    simp [requestCheckSuite, hl]
  · intro hl
    have hfil : st.checkSuites.filter
        (fun cs => cs.appID == appID && cs.headSHA == commit) = [] := hl
    simp [requestCheckSuite, hl, listCheckSuitesForRef, List.filter_append,
      hfil]

/-- Witness for C6: requesting a check suite against an empty backend
creates suite 0 and runs it. -/
theorem requestCheckSuite_spec_witness :
    (requestCheckSuite ⟨[], 0⟩ 7 "abc").created = some 0 ∧
    (requestCheckSuite ⟨[], 0⟩ 7 "abc").rerunID = 0 := by
  have h := (requestCheckSuite_spec ⟨[], 0⟩ 7 "abc" (by decide)).2.2.1
    (by decide)
  exact ⟨h.1, h.2.1⟩

/-! ## The webhook transformer (receiver/internal/webhooks/service.go,
`(*service).Handle`)

`Handle(ctx, appID, webhookType, payload)` parses the payload into a typed
webhook, performs check-suite forwarding (a side effect that does not alter
the emitted events, embedded separately above), builds zero or more Events
through a type switch, derives CI/CD convenience events, and emits them.
The embedding takes the parsed webhook (the claims under verification all
concern well-formed payloads) and returns the list of events Handle emits;
`eventsClient.Create` is modelled as succeeding and returning the event it
was given. -/

/-- Association-list lookup, embedding Go's comma-ok map read
(`v, ok := m[k]`). -/
def lookupKV (m : List (String × String)) (k : String) : Option String :=
  (m.find? (fun p => p.1 == k)).map (fun p => p.2)

/-- `core.GitDetails` from the Brigade SDK: the commit and ref an Event is
scoped to. -/
structure GitDetails where
  commit : String
  ref : String
  deriving DecidableEq, Repr

/-- `core.Event` from the Brigade SDK, restricted to the fields the
receiver populates. `sourceState` is the Event's `SourceState.State` map
(`none` when the receiver leaves `SourceState` nil). -/
structure Event where
  source : String
  type : String
  payload : String
  labels : List (String × String)
  qualifiers : List (String × String)
  git : Option GitDetails
  projectID : String
  shortTitle : String
  longTitle : String
  sourceState : Option (List (String × String))
  deriving DecidableEq, Repr

/-- The typed GitHub webhooks handled by `(*service).Handle`'s type switch
(a closed tagged union over `github.ParseWebHook`'s results), each
constructor carrying the payload fields the corresponding switch case
reads. PR-flavored webhooks are modelled with their number present (the
parsed payload always carries it) and their title optional. -/
inductive Webhook
  | checkRun (action checkRunName repoFullName repoName repoOwnerLogin : String)
      (installationID : Int) (headSHA headBranch : String)
  | checkSuite (action repoFullName repoName repoOwnerLogin : String)
      (installationID : Int) (headSHA headBranch : String)
  | create (repoFullName ref : String)
  | delete (repoFullName : String)
  | fork (repoFullName : String)
  | gitHubAppAuthorization
  | gollum (repoFullName : String)
  | installation (action : String) (repositories : List String)
  | installationRepositories (action : String)
      (repositoriesAdded repositoriesRemoved : List String)
  | issueComment (action repoFullName : String)
  | issues (action repoFullName : String)
  | label (action repoFullName : String)
  | member (action repoFullName : String)
  | milestone (action repoFullName : String)
  | pageBuild (repoFullName : String)
  | ping
  | projectCard (action repoFullName : String)
  | projectColumn (action repoFullName : String)
  | project (action repoFullName : String)
  | public (repoFullName : String)
  | pullRequest (action repoFullName : String) (number : Int)
      (title : Option String) (headSHA : String)
  | pullRequestReview (action repoFullName : String) (number : Int)
      (title : Option String) (headSHA : String)
  | pullRequestReviewComment (action repoFullName : String) (number : Int)
      (title : Option String) (headSHA : String)
  | push (repoFullName ref headCommitID : String) (deleted : Bool)
  | release (action repoFullName tagName : String)
  | repository (action repoFullName : String)
  | status (repoFullName commitSHA : String)
  | teamAdd (repoFullName : String)
  | watch (action repoFullName : String)
  deriving DecidableEq, Repr

/-- `strings.SplitN(s, ":", 2)` as used on the check-run name: `none` when
the string contains no `":"` (one token), otherwise the segments before
and after the first `":"` (two tokens). -/
def splitOnceOnColon : List Char → Option (List Char × List Char)
  | [] => none
  | c :: cs =>
      if c = ':' then some ([], cs)
      else (splitOnceOnColon cs).map (fun p => (c :: p.1, p.2))

/-- The text after the leftmost occurrence of `pat` in the string, `none`
when `pat` does not occur (models `regexp.FindStringSubmatch` for the
anchORless patterns `refs/heads/(.+)` and `refs/tags/(.+)`, whose capture
is the greedy remainder after the leftmost literal occurrence). -/
def afterFirstOcc (pat : List Char) : List Char → Option (List Char)
  | [] => if pat.isEmpty then some [] else none
  | c :: cs =>
      if (c :: cs).take pat.length = pat then some ((c :: cs).drop pat.length)
      else afterFirstOcc pat cs

/-- `getTitlesFromPushWebhook`: `"branch: <name>"` when the ref matches
`refs/heads/(.+)`, else `"tag: <name>"` when it matches `refs/tags/(.+)`,
else empty; short and long title coincide. -/
def getTitlesFromPushWebhook (ref : String) : String × String :=
  match afterFirstOcc "refs/heads/".toList ref.toList with
  | some (c :: cs) =>
      let t := "branch: " ++ (c :: cs).asString
      (t, t)
  | _ =>
      match afterFirstOcc "refs/tags/".toList ref.toList with
      | some (c :: cs) =>
          let t := "tag: " ++ (c :: cs).asString
          (t, t)
      | _ => ("", "")

/-- `getTitlesFromPR`: `"PR #<n>"`, and `"PR #<n>: <title>"` when the PR
carries a title. -/
def getTitlesFromPR (number : Int) (title : Option String) : String × String :=
  let shortTitle := "PR #" ++ toString number
  match title with
  | some t => (shortTitle, shortTitle ++ ": " ++ t)
  | none => (shortTitle, "")

/-- The Event every `Handle` call starts from: source `brigade.sh/github`,
the raw payload, and the `appID` label rendered with
`strconv.FormatInt(appID, 10)`. -/
def newEvent (appID : Int) (payload : String) : Event :=
  { source := "brigade.sh/github", type := "", payload := payload,
    labels := [("appID", toString appID)], qualifiers := [], git := none,
    projectID := "", shortTitle := "", longTitle := "", sourceState := none }

/-- The tracking contract recorded on trackable webhooks
(`event.SourceState.State`). -/
def trackingState (installationID : Int) (owner repo headSHA : String) :
    List (String × String) :=
  [("tracking", "true"), ("installationID", toString installationID),
    ("owner", owner), ("repo", repo), ("headSHA", headSHA)]

/-- `(*service).getCICDEvent` (receiver/internal/webhooks/ci_cd.go): maps
`check_suite:requested` and `check_suite:rerequested` to a copy of the
event with type `ci:pipeline_requested`, `check_run:rerequested` to
`ci:job_requested`, `release:published` to `cd:pipeline_requested`, and
everything else to `nil`. -/
def getCICDEvent (event : Event) : Option Event :=
  if event.type = "check_suite:requested" ∨
      event.type = "check_suite:rerequested" then
    some { event with type := "ci:pipeline_requested" }
  else if event.type = "check_run:rerequested" then
    some { event with type := "ci:job_requested" }
  else if event.type = "release:published" then
    some { event with type := "cd:pipeline_requested" }
  else none

/-- The derivation loop at the end of `Handle`: `for _, event = range
eventsToEmit { if ciCDEvent := s.getCICDEvent(event); ciCDEvent != nil {
eventsToEmit = append(eventsToEmit, *ciCDEvent) } }`. Go's `range`
iterates over the slice as it was when the loop started, so the appended
derived events are not themselves visited. -/
def deriveCICDEvents (eventsToEmit : List Event) : List Event :=
  eventsToEmit ++ eventsToEmit.filterMap getCICDEvent

/-- The type switch of `(*service).Handle`: the `eventsToEmit` list built
for one webhook (before CI/CD derivation). The check-run case returns
early, dropping the webhook, when the check-run name is not of the form
`<projectID>:<jobName>`. -/
def eventsToEmitFor (appID : Int) (payload : String) :
    Webhook → List Event
  | .checkRun action checkRunName repoFullName repoName repoOwnerLogin
      installationID headSHA headBranch =>
      match splitOnceOnColon checkRunName.toList with
      | none => []
      | some (projectID, _) =>
          [{ newEvent appID payload with
              projectID := projectID.asString,
              type := "check_run:" ++ action,
              qualifiers := [("repo", repoFullName)],
              git := some ⟨headSHA, headBranch⟩,
              sourceState :=
                if action = "rerequested" then
                  some (trackingState installationID repoOwnerLogin repoName
                    headSHA)
                else none }]
  | .checkSuite action repoFullName repoName repoOwnerLogin installationID
      headSHA headBranch =>
      [{ newEvent appID payload with
          type := "check_suite:" ++ action,
          qualifiers := [("repo", repoFullName)],
          git := some ⟨headSHA, headBranch⟩,
          sourceState :=
            if action = "requested" ∨ action = "rerequested" then
              some (trackingState installationID repoOwnerLogin repoName
                headSHA)
            else none }]
  | .create repoFullName ref =>
      [{ newEvent appID payload with
          type := "create",
          qualifiers := [("repo", repoFullName)],
          git := some ⟨"", ref⟩ }]
  | .delete repoFullName =>
      [{ newEvent appID payload with
          type := "delete",
          qualifiers := [("repo", repoFullName)] }]
  | .fork repoFullName =>
      [{ newEvent appID payload with
          type := "fork",
          qualifiers := [("repo", repoFullName)] }]
  | .gitHubAppAuthorization => []
  | .gollum repoFullName =>
      [{ newEvent appID payload with
          type := "gollum",
          qualifiers := [("repo", repoFullName)] }]
  | .installation action repositories =>
      repositories.map (fun repo =>
        { newEvent appID payload with
          type := "installation:" ++ action,
          qualifiers := [("repo", repo)] })
  | .installationRepositories action repositoriesAdded
      repositoriesRemoved =>
      (if action = "removed" then repositoriesRemoved
        else repositoriesAdded).map (fun repo =>
        { newEvent appID payload with
          type := "installation_repositories:" ++ action,
          qualifiers := [("repo", repo)] })
  | .issueComment action repoFullName =>
      [{ newEvent appID payload with
          type := "issue_comment:" ++ action,
          qualifiers := [("repo", repoFullName)] }]
  | .issues action repoFullName =>
      [{ newEvent appID payload with
          type := "issues:" ++ action,
          qualifiers := [("repo", repoFullName)] }]
  | .label action repoFullName =>
      [{ newEvent appID payload with
          type := "label:" ++ action,
          qualifiers := [("repo", repoFullName)] }]
  | .member action repoFullName =>
      [{ newEvent appID payload with
          type := "member:" ++ action,
          qualifiers := [("repo", repoFullName)] }]
  | .milestone action repoFullName =>
      [{ newEvent appID payload with
          type := "milestone:" ++ action,
          qualifiers := [("repo", repoFullName)] }]
  | .pageBuild repoFullName =>
      [{ newEvent appID payload with
          type := "page_build",
          qualifiers := [("repo", repoFullName)] }]
  | .ping => []
  | .projectCard action repoFullName =>
      [{ newEvent appID payload with
          type := "project_card:" ++ action,
          qualifiers := [("repo", repoFullName)] }]
  | .projectColumn action repoFullName =>
      [{ newEvent appID payload with
          type := "project_column:" ++ action,
          qualifiers := [("repo", repoFullName)] }]
  | .project action repoFullName =>
      [{ newEvent appID payload with
          type := "project:" ++ action,
          qualifiers := [("repo", repoFullName)] }]
  | .public repoFullName =>
      [{ newEvent appID payload with
          type := "public",
          qualifiers := [("repo", repoFullName)] }]
  | .pullRequest action repoFullName number title headSHA =>
      [{ newEvent appID payload with
          type := "pull_request:" ++ action,
          qualifiers := [("repo", repoFullName)],
          shortTitle := (getTitlesFromPR number title).1,
          longTitle := (getTitlesFromPR number title).2,
          git := some ⟨headSHA, "refs/pull/" ++ toString number ++ "/head"⟩ }]
  | .pullRequestReview action repoFullName number title headSHA =>
      [{ newEvent appID payload with
          type := "pull_request_review:" ++ action,
          qualifiers := [("repo", repoFullName)],
          shortTitle := (getTitlesFromPR number title).1,
          longTitle := (getTitlesFromPR number title).2,
          git := some ⟨headSHA, "refs/pull/" ++ toString number ++ "/head"⟩ }]
  | .pullRequestReviewComment action repoFullName number title headSHA =>
      [{ newEvent appID payload with
          type := "pull_request_review_comment:" ++ action,
          qualifiers := [("repo", repoFullName)],
          shortTitle := (getTitlesFromPR number title).1,
          longTitle := (getTitlesFromPR number title).2,
          git := some ⟨headSHA, "refs/pull/" ++ toString number ++ "/head"⟩ }]
  | .push repoFullName ref headCommitID deleted =>
      if deleted then
        [{ newEvent appID payload with
          type := "push:delete",
            qualifiers := [("repo", repoFullName)],
            shortTitle := (getTitlesFromPushWebhook ref).1,
            longTitle := (getTitlesFromPushWebhook ref).2,
            git := none }]
      else
        [{ newEvent appID payload with
          type := "push",
            qualifiers := [("repo", repoFullName)],
            shortTitle := (getTitlesFromPushWebhook ref).1,
            longTitle := (getTitlesFromPushWebhook ref).2,
            git := some ⟨headCommitID, ref⟩ }]
  | .release action repoFullName tagName =>
      [{ newEvent appID payload with
          type := "release:" ++ action,
          qualifiers := [("repo", repoFullName)],
          git := some ⟨"", tagName⟩ }]
  | .repository action repoFullName =>
      [{ newEvent appID payload with
          type := "repository:" ++ action,
          qualifiers := [("repo", repoFullName)] }]
  | .status repoFullName commitSHA =>
      [{ newEvent appID payload with
          type := "status",
          qualifiers := [("repo", repoFullName)],
          git := some ⟨commitSHA, ""⟩ }]
  | .teamAdd repoFullName =>
      [{ newEvent appID payload with
          type := "team_add",
          qualifiers := [("repo", repoFullName)] }]
  | .watch action repoFullName =>
      [{ newEvent appID payload with
          type := "watch:" ++ action,
          qualifiers := [("repo", repoFullName)] }]

/-- `(*service).Handle` (post-parse): build `eventsToEmit` through the type
switch, append the derived CI/CD convenience events, and emit the result
(emission is modelled as returning each event). The check-run early return
yields the empty list, on which the derivation loop is a no-op. -/
def handle (appID : Int) (payload : String) (webhook : Webhook) :
    List Event :=
  deriveCICDEvents (eventsToEmitFor appID payload webhook)

theorem length_filterMap_isSome (f : Event → Option Event) (l : List Event) :
    (l.filterMap f).length = (l.filter (fun x => (f x).isSome)).length := by
  induction l with
  | nil => rfl
  | cons x xs ih => cases hfx : f x <;> simp [List.filterMap_cons, hfx, ih]

theorem getCICDEvent_no_recurse (e e' : Event)
    (h : getCICDEvent e = some e') : getCICDEvent e' = none := by
  simp only [getCICDEvent] at h ⊢
  split_ifs at h with h1 h2 h3
  · injection h with h; subst h; simp
  · injection h with h; subst h; simp
  · injection h with h; subst h; simp

theorem getCICDEvent_preserves (e e' : Event)
    (h : getCICDEvent e = some e') :
    e'.source = e.source ∧ e'.labels = e.labels ∧ e'.payload = e.payload ∧
    e'.qualifiers = e.qualifiers ∧ e'.git = e.git ∧
    e'.projectID = e.projectID := by
  simp only [getCICDEvent] at h
  split_ifs at h
  · injection h with h; subst h; exact ⟨rfl, rfl, rfl, rfl, rfl, rfl⟩
  · injection h with h; subst h; exact ⟨rfl, rfl, rfl, rfl, rfl, rfl⟩
  · injection h with h; subst h; exact ⟨rfl, rfl, rfl, rfl, rfl, rfl⟩

/-- **C8.** For every Event whose type is in the derivation subset
(`check_suite:requested`, `check_suite:rerequested`, `check_run:rerequested`,
`release:published`), exactly one synthetic convenience Event with the
distilled type is derived, a copy of the original differing only in type
(so sharing its qualifiers and git fields); the derivation is a pure
function, and it never recurses: applied to a derived Event it yields no
further Event, so derived Events are not re-derived within a `Handle`
call. -/
theorem getCICDEvent_spec (e : Event) :
    ((e.type = "check_suite:requested" ∨
        e.type = "check_suite:rerequested") →
      getCICDEvent e = some { e with type := "ci:pipeline_requested" }) ∧
    (e.type = "check_run:rerequested" →
      getCICDEvent e = some { e with type := "ci:job_requested" }) ∧
    (e.type = "release:published" →
      getCICDEvent e = some { e with type := "cd:pipeline_requested" }) ∧
    (∀ e', getCICDEvent e = some e' → getCICDEvent e' = none) ∧
    (∀ evs : List Event, ∀ e' ∈ evs.filterMap getCICDEvent,
      getCICDEvent e' = none) ∧
    (∀ evs : List Event, (deriveCICDEvents evs).length
      = evs.length + (evs.filter (fun x => (getCICDEvent x).isSome)).length) := by
  refine ⟨?_, ?_, ?_, getCICDEvent_no_recurse e, ?_, ?_⟩
  · rintro (h | h) <;> simp [getCICDEvent, h]
  · intro h; simp [getCICDEvent, h]
  · intro h; simp [getCICDEvent, h]
  · intro evs e' he'
    simp only [List.mem_filterMap] at he'
    obtain ⟨a, -, ha⟩ := he'
    exact getCICDEvent_no_recurse a e' ha
  · intro evs
    simp [deriveCICDEvents, length_filterMap_isSome]

/-- Witness for C8: the derivation evaluated at a concrete
`release:published` Event, and its non-recursion on the result. -/
theorem getCICDEvent_spec_witness :
    getCICDEvent { newEvent 1 "p" with type := "release:published" }
      = some { newEvent 1 "p" with type := "cd:pipeline_requested" } ∧
    getCICDEvent { newEvent 1 "p" with type := "cd:pipeline_requested" }
      = none := by
  have h := (getCICDEvent_spec
    { newEvent 1 "p" with type := "release:published" }).2.2.1 rfl
  exact ⟨h, (getCICDEvent_spec
    { newEvent 1 "p" with type := "release:published" }).2.2.2.1 _ h⟩

/-- **C9.** A push webhook with its `deleted` flag set produces exactly one
Event, of type `push:delete` with `git` = null, whereas the same push
webhook without the flag produces exactly one Event of type `push`
carrying `git.ref` and `git.commit`. -/
theorem handle_push_spec (appID : Int) (payload : String)
    (repoFullName ref headCommitID : String) :
    handle appID payload (.push repoFullName ref headCommitID true)
      = [{ newEvent appID payload with
            type := "push:delete",
            qualifiers := [("repo", repoFullName)],
            shortTitle := (getTitlesFromPushWebhook ref).1,
            longTitle := (getTitlesFromPushWebhook ref).2,
            git := none }] ∧
    handle appID payload (.push repoFullName ref headCommitID false)
      = [{ newEvent appID payload with
            type := "push",
            qualifiers := [("repo", repoFullName)],
            shortTitle := (getTitlesFromPushWebhook ref).1,
            longTitle := (getTitlesFromPushWebhook ref).2,
            git := some ⟨headCommitID, ref⟩ }] := by
  constructor <;> rfl

/-- **C4.** A check-run webhook with action `rerequested` whose check-run
name splits as `<projectID>:<jobName>` yields exactly two Events: the
`check_run:rerequested` Event with that projectID and a derived
`ci:job_requested` convenience Event that is a copy of it (hence identical
git fields); when the name contains no colon, `Handle` yields zero Events
(and, in the source, no error). -/
theorem handle_checkRun_rerequested_spec (appID : Int) (payload : String)
    (checkRunName repoFullName repoName repoOwnerLogin : String)
    (installationID : Int) (headSHA headBranch : String) :
    (splitOnceOnColon checkRunName.toList = none →
      handle appID payload (.checkRun "rerequested" checkRunName
        repoFullName repoName repoOwnerLogin installationID headSHA
        headBranch) = []) ∧
    (∀ projectID jobName,
      splitOnceOnColon checkRunName.toList = some (projectID, jobName) →
      handle appID payload (.checkRun "rerequested" checkRunName
          repoFullName repoName repoOwnerLogin installationID headSHA
          headBranch)
        = [{ newEvent appID payload with
              projectID := projectID.asString,
              type := "check_run:rerequested",
              qualifiers := [("repo", repoFullName)],
              git := some ⟨headSHA, headBranch⟩,
              sourceState := some (trackingState installationID
                repoOwnerLogin repoName headSHA) },
            { newEvent appID payload with
              projectID := projectID.asString,
              type := "ci:job_requested",
              qualifiers := [("repo", repoFullName)],
              git := some ⟨headSHA, headBranch⟩,
              sourceState := some (trackingState installationID
                repoOwnerLogin repoName headSHA) }]) := by
  constructor
  · intro h
    have h' : splitOnceOnColon checkRunName.data = none := h
    simp [handle, eventsToEmitFor, h', deriveCICDEvents]
  · intro projectID jobName h
    simp only [handle, eventsToEmitFor]
    rw [h]
    rfl

/-- Witness for C4: a check-run webhook named `foo:bar` with action
`rerequested` yields the `check_run:rerequested` Event with projectID
`foo` plus the derived `ci:job_requested` Event. -/
theorem handle_checkRun_rerequested_spec_witness :
    handle 1 "pl" (.checkRun "rerequested" "foo:bar" "o/r" "r" "o" 9 "sha"
        "main")
      = [{ newEvent 1 "pl" with
            projectID := "foo",
            type := "check_run:rerequested",
            qualifiers := [("repo", "o/r")],
            git := some ⟨"sha", "main"⟩,
            sourceState := some (trackingState 9 "o" "r" "sha") },
          { newEvent 1 "pl" with
            projectID := "foo",
            type := "ci:job_requested",
            qualifiers := [("repo", "o/r")],
            git := some ⟨"sha", "main"⟩,
            sourceState := some (trackingState 9 "o" "r" "sha") }] :=
  (handle_checkRun_rerequested_spec 1 "pl" "foo:bar" "o/r" "r" "o" 9 "sha"
    "main").2 "foo".toList "bar".toList rfl

theorem eventsToEmitFor_fields (appID : Int) (payload : String)
    (w : Webhook) : ∀ e ∈ eventsToEmitFor appID payload w,
    e.source = "brigade.sh/github" ∧
    e.labels = [("appID", toString appID)] ∧ e.payload = payload := by
  intro e he
  cases w <;>
    simp only [eventsToEmitFor] at he <;>
    (try split at he) <;>
    simp only [List.mem_singleton, List.mem_map, List.not_mem_nil] at he <;>
    first
      | exact he.elim
      | (subst he; exact ⟨rfl, rfl, rfl⟩)
      | (obtain ⟨r, -, rfl⟩ := he; exact ⟨rfl, rfl, rfl⟩)

/-- **C10.** Every Event produced by one `Handle` call — the base Events of
every webhook kind, the fan-out Events of multi-repository webhooks, and
the derived CI/CD convenience Events — has source `brigade.sh/github`, an
`appID` label equal to the decimal rendering of the `appID` argument (the
label the monitor later reads to select the app identity), and the raw
webhook payload as its payload. -/
theorem handle_fields_spec (appID : Int) (payload : String) (w : Webhook) :
    ∀ e ∈ handle appID payload w,
      e.source = "brigade.sh/github" ∧
      e.labels = [("appID", toString appID)] ∧
      lookupKV e.labels "appID" = some (toString appID) ∧
      e.payload = payload := by
  intro e he
  simp only [handle, deriveCICDEvents, List.mem_append,
    List.mem_filterMap] at he
  rcases he with hb | ⟨a, ha, hda⟩
  · obtain ⟨h1, h2, h3⟩ := eventsToEmitFor_fields appID payload w e hb
    refine ⟨h1, h2, ?_, h3⟩
    rw [h2]; rfl
  · obtain ⟨hp1, hp2, hp3, -⟩ := getCICDEvent_preserves a e hda
    obtain ⟨h1, h2, h3⟩ := eventsToEmitFor_fields appID payload w a ha
    refine ⟨hp1.trans h1, hp2.trans h2, ?_, hp3.trans h3⟩
    rw [hp2.trans h2]; rfl

/-- Witness for C10: the invariant read off a concrete `delete` webhook's
single emitted Event. -/
theorem handle_fields_spec_witness :
    ({ newEvent 1 "pl" with
        type := "delete",
        qualifiers := [("repo", "o/r")] } : Event).source
      = "brigade.sh/github" ∧
    ({ newEvent 1 "pl" with
        type := "delete",
        qualifiers := [("repo", "o/r")] } : Event).labels
      = [("appID", toString (1 : Int))] ∧
    lookupKV ({ newEvent 1 "pl" with
        type := "delete",
        qualifiers := [("repo", "o/r")] } : Event).labels "appID"
      = some (toString (1 : Int)) ∧
    ({ newEvent 1 "pl" with
        type := "delete",
        qualifiers := [("repo", "o/r")] } : Event).payload = "pl" :=
  handle_fields_spec 1 "pl" (.delete "o/r") _ (List.mem_cons_self _ _)

/-! ## The per-Event monitoring task (monitor,
`(*monitor).monitorEventInternal`)

One iteration of the polling loop body: fetch the Event (modelled as given),
resolve the GitHub App from the `appID` label, report status for every Job
not yet reported complete, and, once all Jobs and the worker are terminal,
clear the Event's source state. Remote check-run create/update calls are
modelled as always succeeding and recorded (`CheckRunOp`); on an error the
surrounding loop returns, so the task exits without restarting itself. -/

/-- `strconv.ParseInt(s, 10, 64)`: an optional sign followed by at least
one decimal digit, rejecting values outside the signed 64-bit range. -/
def digitVal (c : Char) : Option Nat :=
  if '0' ≤ c ∧ c ≤ '9' then some (c.toNat - '0'.toNat) else none

def parseDecDigits : List Char → Nat → Option Nat
  | [], acc => some acc
  | c :: cs, acc =>
      match digitVal c with
      | some d => parseDecDigits cs (acc * 10 + d)
      | none => none

def maxInt64 : Nat := 2 ^ 63 - 1

def parseInt64 (s : String) : Option Int :=
  match s.toList with
  | [] => none
  | '+' :: cs =>
      if cs.isEmpty then none
      else (parseDecDigits cs 0).bind (fun n =>
        if n ≤ maxInt64 then some (n : Int) else none)
  | '-' :: cs =>
      if cs.isEmpty then none
      else (parseDecDigits cs 0).bind (fun n =>
        if n ≤ maxInt64 + 1 then some (-(n : Int)) else none)
  | cs =>
      (parseDecDigits cs 0).bind (fun n =>
        if n ≤ maxInt64 then some (n : Int) else none)

/-- `ghlib.App` (internal/github/apps.go), restricted to the fields the
monitor uses: the App's ID and API key. -/
structure App where
  appID : Int
  apiKey : String
  deriving DecidableEq, Repr

/-- `monitorConfig` (monitor/config.go), restricted to the fields
`monitorEventInternal` reads: the GitHub Apps map (`gitHubApps`, indexed by
App ID) and the `reportFallibleJobFailuresAsNeutral` flag. -/
structure MonitorConfig where
  gitHubApps : List (Int × App)
  reportFallibleJobFailuresAsNeutral : Bool
  deriving DecidableEq, Repr

/-- Go's comma-ok read of the `gitHubApps` map. -/
def lookupApp (m : List (Int × App)) (k : Int) : Option App :=
  (m.find? (fun p => p.1 == k)).map (fun p => p.2)

/-- Go's plain read of a `map[string]string` — the empty string when the
key is absent (`event.SourceState.State["owner"]` etc.). -/
def lookupKVD (m : List (String × String)) (k : String) : String :=
  (lookupKV m k).getD ""

/-- Go's comma-ok read of the per-task `checkRunIDs` map. -/
def lookupID (m : List (String × Int)) (k : String) : Option Int :=
  (m.find? (fun p => p.1 == k)).map (fun p => p.2)

/-- `sdk.Job`, restricted to the fields the monitor reads: name, status
phase and `Spec.Fallible`. -/
structure Job where
  name : String
  phase : JobPhase
  fallible : Bool
  deriving DecidableEq, Repr

/-- The Event as the monitor fetches it: its labels, its
`SourceState.State` map, its worker phase, its Jobs and its project ID. -/
structure MonEvent where
  labels : List (String × String)
  sourceStateState : List (String × String)
  workerPhase : WorkerPhase
  jobs : List Job
  projectID : String
  deriving DecidableEq, Repr

/-- One remote check-run call issued by the monitoring task, recording the
arguments `createCheckRun` / `updateCheckRun` pass to the GitHub client
(`headSHA` only on create, `checkRunID` only on update). -/
structure CheckRunOp where
  isCreate : Bool
  app : App
  installationID : Int
  owner : String
  repo : String
  headSHA : String
  checkRunID : Int
  name : String
  status : String
  conclusion : String
  logs : List Char
  deriving DecidableEq, Repr

/-- The task-local state threaded through the Job loop of one iteration:
the Job-name → check-run-ID map, the set of Jobs reported complete, the
`allJobsCompleted` accumulator, the recorded remote calls, and the next
check-run ID the (modelled) GitHub backend will assign. -/
structure JobLoopState where
  checkRunIDs : List (String × Int)
  reported : List String
  allJobsCompleted : Bool
  ops : List CheckRunOp
  nextCheckRunID : Int
  deriving DecidableEq, Repr

/-- The Job loop of `monitorEventInternal` (`for _, job := range
event.Worker.Jobs`): skip Jobs already reported complete; compute the
status/conclusion projection; fetch bounded logs (`entriesFor` gives each
Job's log stream); parse `installationID` from `sourceState.state` (a parse
failure aborts the whole task with an error); create the check run on first
sight of a Job, update it afterwards; record terminal Jobs as reported
complete, and clear `allJobsCompleted` for non-terminal ones. Returns the
final state and the error, if any, that stopped the loop. -/
def reportJobs (cfg : MonitorConfig) (app : App) (ev : MonEvent)
    (entriesFor : String → List (List Char)) :
    List Job → JobLoopState → JobLoopState × Option String
  | [], st => (st, none)
  | job :: rest, st =>
      if job.name ∈ st.reported then
        reportJobs cfg app ev entriesFor rest st
      else
        let sc := checkRunStatusAndConclusionFromJobStatus
          cfg.reportFallibleJobFailuresAsNeutral job.phase job.fallible
        let jobLogs := getJobLogs job.phase (entriesFor job.name)
        match parseInt64 (lookupKVD ev.sourceStateState "installationID") with
        | none => (st, some "error parsing installationID from event; giving up")
        | some installationID =>
            let st' : JobLoopState :=
              match lookupID st.checkRunIDs job.name with
              | none =>
                  { st with
                    checkRunIDs :=
                      st.checkRunIDs ++ [(job.name, st.nextCheckRunID)],
                    ops := st.ops ++
                      [{ isCreate := true, app := app,
                         installationID := installationID,
                         owner := lookupKVD ev.sourceStateState "owner",
                         repo := lookupKVD ev.sourceStateState "repo",
                         headSHA := lookupKVD ev.sourceStateState "headSHA",
                         checkRunID := 0,
                         name := ev.projectID ++ ":" ++ job.name,
                         status := sc.1, conclusion := sc.2,
                         logs := jobLogs }],
                    nextCheckRunID := st.nextCheckRunID + 1 }
              | some checkRunID =>
                  { st with
                    ops := st.ops ++
                      [{ isCreate := false, app := app,
                         installationID := installationID,
                         owner := lookupKVD ev.sourceStateState "owner",
                         repo := lookupKVD ev.sourceStateState "repo",
                         headSHA := "",
                         checkRunID := checkRunID,
                         name := ev.projectID ++ ":" ++ job.name,
                         status := sc.1, conclusion := sc.2,
                         logs := jobLogs }] }
            let st'' : JobLoopState :=
              if job.phase.isTerminal then
                { st' with reported := st'.reported ++ [job.name] }
              else
                { st' with allJobsCompleted := false }
            reportJobs cfg app ev entriesFor rest st''

/-- The observable outcome of one iteration of `monitorEventInternal`'s
polling loop: the fatal error (if any) ending the task, whether the
Event's source state was cleared (the task's only normal termination), the
remote calls issued, and the task state carried into the next iteration. -/
structure IterResult where
  fatalMsg : Option String
  clearedSourceState : Bool
  ops : List CheckRunOp
  checkRunIDs : List (String × Int)
  reported : List String
  deriving DecidableEq, Repr

/-- One iteration of the polling loop body of
`(*monitor).monitorEventInternal` (the fetched Event given as `ev`): read
and parse the `appID` label, look up the App's configuration, run the Job
loop, and — when every Job is reported complete and the worker phase is
terminal — clear the Event's source state and exit; each failure makes the
task return the error without clearing the source state. -/
def monitorEventIteration (cfg : MonitorConfig) (ev : MonEvent)
    (entriesFor : String → List (List Char))
    (checkRunIDs : List (String × Int)) (reported : List String)
    (nextCheckRunID : Int) : IterResult :=
  match lookupKV ev.labels "appID" with
  | none =>
      { fatalMsg := some "no github app ID found in event labels; giving up",
        clearedSourceState := false, ops := [],
        checkRunIDs := checkRunIDs, reported := reported }
  | some appIDStr =>
      match parseInt64 appIDStr with
      | none =>
          { fatalMsg := some "error parsing github app ID from event labels; giving up",
            clearedSourceState := false, ops := [],
            checkRunIDs := checkRunIDs, reported := reported }
      | some appID =>
          match lookupApp cfg.gitHubApps appID with
          | none =>
              { fatalMsg := some "no configuration found for app ID from event labels; giving up",
                clearedSourceState := false, ops := [],
                checkRunIDs := checkRunIDs, reported := reported }
          | some app =>
              let r := reportJobs cfg app ev entriesFor ev.jobs
                { checkRunIDs := checkRunIDs, reported := reported,
                  allJobsCompleted := true, ops := [],
                  nextCheckRunID := nextCheckRunID }
              match r.2 with
              | some msg =>
                  { fatalMsg := some msg, clearedSourceState := false,
                    ops := r.1.ops, checkRunIDs := r.1.checkRunIDs,
                    reported := r.1.reported }
              | none =>
                  if r.1.allJobsCompleted && ev.workerPhase.isTerminal then
                    { fatalMsg := none, clearedSourceState := true,
                      ops := r.1.ops, checkRunIDs := r.1.checkRunIDs,
                      reported := r.1.reported }
                  else
                    { fatalMsg := none, clearedSourceState := false,
                      ops := r.1.ops, checkRunIDs := r.1.checkRunIDs,
                      reported := r.1.reported }

theorem reportJobs_installationID_fatal (cfg : MonitorConfig) (app : App)
    (ev : MonEvent) (entriesFor : String → List (List Char))
    (hparse : parseInt64 (lookupKVD ev.sourceStateState "installationID")
      = none) :
    ∀ (jobs : List Job) (st : JobLoopState),
      (∃ job ∈ jobs, job.name ∉ st.reported) →
      reportJobs cfg app ev entriesFor jobs st
        = (st, some "error parsing installationID from event; giving up") := by
  intro jobs
  induction jobs with
  | nil =>
      intro st h
      obtain ⟨j, hj, -⟩ := h
      exact absurd hj (List.not_mem_nil j)
  | cons job rest ih =>
      intro st h
      by_cases hrep : job.name ∈ st.reported
      · obtain ⟨j, hj, hjr⟩ := h
        rcases List.mem_cons.mp hj with rfl | hj'
        · exact absurd hrep hjr
        · have := ih st ⟨j, hj', hjr⟩
          simpa [reportJobs, hrep] using this
      · simp [reportJobs, hrep, hparse]

/-- **C7 (amended).** The monitoring task extracts the app identity from
the `appID` label and the installation ID from `sourceState.state`; a
missing `appID` label, an unparsable `appID`, an `appID` with no configured
App, or — when some Job still needs reporting — a missing-or-unparsable
`installationID` is fatal to this task: the iteration ends with an error
and without clearing the Event's sourceState (the Event remains tracked),
and the task does not restart itself, since the loop returns on error. The
owner, repo and headSHA fields, by contrast, are read without validation
(empty string when absent) — see the counterexample theorem. -/
theorem monitorEventIteration_fatal_spec (cfg : MonitorConfig)
    (ev : MonEvent) (entriesFor : String → List (List Char))
    (checkRunIDs : List (String × Int)) (reported : List String)
    (nextCheckRunID : Int) :
    (lookupKV ev.labels "appID" = none →
      (monitorEventIteration cfg ev entriesFor checkRunIDs reported
        nextCheckRunID).fatalMsg.isSome = true ∧
      (monitorEventIteration cfg ev entriesFor checkRunIDs reported
        nextCheckRunID).clearedSourceState = false) ∧
    (∀ s, lookupKV ev.labels "appID" = some s → parseInt64 s = none →
      (monitorEventIteration cfg ev entriesFor checkRunIDs reported
        nextCheckRunID).fatalMsg.isSome = true ∧
      (monitorEventIteration cfg ev entriesFor checkRunIDs reported
        nextCheckRunID).clearedSourceState = false) ∧
    (∀ s a, lookupKV ev.labels "appID" = some s → parseInt64 s = some a →
      lookupApp cfg.gitHubApps a = none →
      (monitorEventIteration cfg ev entriesFor checkRunIDs reported
        nextCheckRunID).fatalMsg.isSome = true ∧
      (monitorEventIteration cfg ev entriesFor checkRunIDs reported
        nextCheckRunID).clearedSourceState = false) ∧
    (∀ s a app, lookupKV ev.labels "appID" = some s →
      parseInt64 s = some a → lookupApp cfg.gitHubApps a = some app →
      parseInt64 (lookupKVD ev.sourceStateState "installationID") = none →
      (∃ job ∈ ev.jobs, job.name ∉ reported) →
      (monitorEventIteration cfg ev entriesFor checkRunIDs reported
        nextCheckRunID).fatalMsg.isSome = true ∧
      (monitorEventIteration cfg ev entriesFor checkRunIDs reported
        nextCheckRunID).clearedSourceState = false) := by
  refine ⟨?_, ?_, ?_, ?_⟩
  · intro h
    simp [monitorEventIteration, h]
  · intro s h hp
    simp [monitorEventIteration, h, hp]
  · intro s a h hp happ
    simp [monitorEventIteration, h, hp, happ]
  · intro s a app h hp happ hparse hex
    have hrj := reportJobs_installationID_fatal cfg app ev entriesFor hparse
      ev.jobs
      { checkRunIDs := checkRunIDs, reported := reported,
        allJobsCompleted := true, ops := [],
        nextCheckRunID := nextCheckRunID }
      (by simpa using hex)
    simp [monitorEventIteration, h, hp, happ, hrj]

/-- Witness for the amended C7: an Event with no `appID` label makes the
iteration end with an error and without clearing the source state. -/
theorem monitorEventIteration_fatal_spec_witness :
    (monitorEventIteration ⟨[], false⟩ ⟨[], [], .running, [], ""⟩
      (fun _ => []) [] [] 0).fatalMsg.isSome = true ∧
    (monitorEventIteration ⟨[], false⟩ ⟨[], [], .running, [], ""⟩
      (fun _ => []) [] [] 0).clearedSourceState = false :=
  (monitorEventIteration_fatal_spec ⟨[], false⟩ ⟨[], [], .running, [], ""⟩
    (fun _ => []) [] [] 0).1 rfl

/-- Counterexample to C7 as stated: an Event whose `sourceState.state`
lacks the `owner` field (with a valid `appID` label and parsable
`installationID`, and a Job to report) does NOT make the task exit with an
error — the iteration completes without a fatal error and issues the
check-run create call with owner `""`. -/
theorem monitorEventIteration_missing_owner_not_fatal :
    lookupKV [("tracking", "true"), ("installationID", "7"), ("repo", "r"),
      ("headSHA", "abc")] "owner" = none ∧
    (monitorEventIteration ⟨[(42, ⟨42, "k"⟩)], false⟩
      ⟨[("appID", "42")],
        [("tracking", "true"), ("installationID", "7"), ("repo", "r"),
          ("headSHA", "abc")],
        .running, [⟨"j", .running, false⟩], "p"⟩
      (fun _ => []) [] [] 1).fatalMsg = none ∧
    ((monitorEventIteration ⟨[(42, ⟨42, "k"⟩)], false⟩
      ⟨[("appID", "42")],
        [("tracking", "true"), ("installationID", "7"), ("repo", "r"),
          ("headSHA", "abc")],
        .running, [⟨"j", .running, false⟩], "p"⟩
      (fun _ => []) [] [] 1).ops.map
        (fun op => (op.isCreate, op.owner, op.installationID)))
      = [(true, "", 7)] := by
  refine ⟨rfl, ?_, ?_⟩ <;> decide

end BGG
